import Mathlib

/-!
Verification development for the ed-galnet-scraper repository
(src/cmtypage_scraper.rs, src/common.rs).

The Rust sources are shallowly embedded: HTML parsing and HTTP transport
are external capabilities, so a fetched page is modelled as the data the
selector layer would hand back (article blocks in document order, each
with its optional field texts, plus the galnet date-link hrefs and the
raw html used in error messages).  Regular expressions are embedded as
executable character scanners with leftmost-first semantics, with the
character classes restricted to their ASCII parts (all inputs relevant
to the claims are ASCII).  The filesystem is an oracle: reads return a
stored article, a missing-file marker, or an io error; writes either
succeed or return an error message.  Wall-clock time is a parameter.
-/

/- ===== Character classes of ARTICLE_DATE_MATCHER =====
In the Rust regex crate the classes backslash-d, backslash-w and
backslash-s are Unicode-aware (decimal digits Nd, word characters,
White_Space).  The date matcher below is therefore defined generically
over the three class interpretations, so that its theorems cover the
crate's real Unicode classes, whose full tables live outside this
development; the three executable functions next are the ASCII
restrictions of those classes and serve as the concrete instance on
which the program model computes (every input the claims exercise is
ASCII). -/

/-- ASCII restriction of regex class backslash-d: a decimal digit.
The full class is Unicode Nd; it instantiates the dig parameter of the
generic matcher below. -/
def isDig (c : Char) : Bool := 48 ≤ c.toNat && c.toNat ≤ 57

/-- ASCII restriction of regex class backslash-w: letter, digit or
underscore.  The full class is the Unicode word-character set; it
instantiates the word parameter of the generic matcher below. -/
def isWordC (c : Char) : Bool :=
  (65 ≤ c.toNat && c.toNat ≤ 90) || (97 ≤ c.toNat && c.toNat ≤ 122)
    || isDig c || c.toNat == 95

/-- ASCII restriction of the bracket of backslash-s and the hyphen:
whitespace or hyphen.  The full class is Unicode White_Space plus the
hyphen; it instantiates the sep parameter of the generic matcher
below. -/
def isSepC (c : Char) : Bool :=
  c.toNat == 32 || c.toNat == 9 || c.toNat == 10 || c.toNat == 11
    || c.toNat == 12 || c.toNat == 13 || c.toNat == 45

/- ===== ARTICLE_DATE_MATCHER =====
Rust: Regex::new(r"(\d{2})[\s-](\w{3})[\s-](\d{4,})")
Embedded as a scanner: try to match at each position from the left,
returning the three captures of the first (leftmost) match; the year
capture is greedy (maximal digit run of length at least four).  The
dig, word and sep parameters interpret the character classes; the
program is the instance at the regex crate's Unicode classes, and the
executable model the instance at their ASCII restrictions. -/

/-- Try the date pattern anchored at the head of the character list.
Returns the captures (day, month, year). -/
def matchDateAtG (dig word sep : Char → Bool) :
    List Char → Option (List Char × List Char × List Char)
  | d1 :: d2 :: s1 :: w1 :: w2 :: w3 :: s2 :: rest =>
    if dig d1 && dig d2 && sep s1 && word w1 && word w2 && word w3
        && sep s2 && decide (4 ≤ (rest.takeWhile dig).length) then
      some ([d1, d2], [w1, w2, w3], rest.takeWhile dig)
    else
      none
  | _ => none

/-- Leftmost-first search of the date pattern. -/
def findDateMatchG (dig word sep : Char → Bool) :
    List Char → Option (List Char × List Char × List Char)
  | [] => none
  | c :: cs =>
    match matchDateAtG dig word sep (c :: cs) with
    | some r => some r
    | none => findDateMatchG dig word sep cs

/-- Rust fn revert_galnet_date over a class interpretation: on a
match, format the captures as "year month day"; otherwise return the
input unchanged. -/
def revert_galnet_dateG (dig word sep : Char → Bool) (date : String) : String :=
  match findDateMatchG dig word sep date.data with
  | some (d, m, y) => String.mk (y ++ ' ' :: m ++ ' ' :: d)
  | none => date

/-- The date matcher at the ASCII class instance (the executable
program model). -/
def matchDateAt : List Char → Option (List Char × List Char × List Char)
  | d1 :: d2 :: s1 :: w1 :: w2 :: w3 :: s2 :: rest =>
    if isDig d1 && isDig d2 && isSepC s1 && isWordC w1 && isWordC w2 && isWordC w3
        && isSepC s2 && decide (4 ≤ (rest.takeWhile isDig).length) then
      some ([d1, d2], [w1, w2, w3], rest.takeWhile isDig)
    else
      none
  | _ => none

/-- Leftmost-first search of the date pattern, ASCII instance. -/
def findDateMatch : List Char → Option (List Char × List Char × List Char)
  | [] => none
  | c :: cs =>
    match matchDateAt (c :: cs) with
    | some r => some r
    | none => findDateMatch cs

/-- Rust fn revert_galnet_date: on a match, format the captures as
"year month day"; otherwise return the input unchanged. -/
def revert_galnet_date (date : String) : String :=
  match findDateMatch date.data with
  | some (d, m, y) => String.mk (y ++ ' ' :: m ++ ' ' :: d)
  | none => date

/- ===== Lemmas about the date matcher ===== -/

lemma length_takeWhile_le_self (p : Char → Bool) :
    ∀ (l : List Char), (l.takeWhile p).length ≤ l.length := by
  intro l
  induction l with
  | nil => simp [List.takeWhile]
  | cons a t ih =>
    by_cases ha : p a = true
    · rw [List.takeWhile_cons, if_pos ha]
      simpa using ih
    · rw [List.takeWhile_cons, if_neg ha]
      simp

lemma matchDateAtG_shape (dig word sep : Char → Bool) (cs d m y : List Char)
    (h : matchDateAtG dig word sep cs = some (d, m, y)) :
    (∃ d1 d2, d = [d1, d2]) ∧ (∃ m1 m2 m3, m = [m1, m2, m3]) ∧
      (∀ c ∈ y, dig c = true) := by
  rcases cs with _ | ⟨c1, _ | ⟨c2, _ | ⟨c3, _ | ⟨c4, _ | ⟨c5, _ | ⟨c6, _ | ⟨c7, rest⟩⟩⟩⟩⟩⟩⟩
  all_goals simp only [matchDateAtG] at h
  all_goals try exact Option.noConfusion h
  split at h
  · simp only [Option.some.injEq, Prod.mk.injEq] at h
    obtain ⟨hd, hm, hy⟩ := h
    refine ⟨⟨c1, c2, hd.symm⟩, ⟨c4, c5, c6, hm.symm⟩, ?_⟩
    intro c hc
    rw [← hy] at hc
    exact List.mem_takeWhile_imp hc
  · exact Option.noConfusion h

lemma findDateMatchG_shape (dig word sep : Char → Bool) (cs d m y : List Char)
    (h : findDateMatchG dig word sep cs = some (d, m, y)) :
    (∃ d1 d2, d = [d1, d2]) ∧ (∃ m1 m2 m3, m = [m1, m2, m3]) ∧
      (∀ c ∈ y, dig c = true) := by
  induction cs with
  | nil => simp [findDateMatchG] at h
  | cons c t ih =>
    rw [findDateMatchG] at h
    cases hm : matchDateAtG dig word sep (c :: t) with
    | some r =>
      rw [hm] at h
      injection h with h
      exact matchDateAtG_shape dig word sep (c :: t) d m y (h ▸ hm)
    | none =>
      rw [hm] at h
      exact ih h

lemma isSepC_eq_false_of_isDig (c : Char) (h : isDig c = true) : isSepC c = false := by
  simp only [isDig, Bool.and_eq_true, decide_eq_true_eq] at h
  simp only [isSepC, Bool.or_eq_false_iff, beq_eq_false_iff_ne]
  omega

/-- If the character in the first separator position is not in the
separator class, the date pattern fails at this position, whatever the
rest of the list is. -/
lemma matchDateAtG_sep3_none (dig word sep : Char → Bool) (d1 d2 s1 : Char)
    (rest : List Char) (h : sep s1 = false) :
    matchDateAtG dig word sep (d1 :: d2 :: s1 :: rest) = none := by
  rcases rest with _ | ⟨w1, _ | ⟨w2, _ | ⟨w3, _ | ⟨s2, r⟩⟩⟩⟩ <;> simp [matchDateAtG, h]

/-- The reformatted output of the date matcher can never itself match
the date pattern, for every class interpretation in which no digit is
a separator and the space is a separator: the only separator-class
characters in the output are its two spaces, and what follows the
second space is a two-digit day, too short for the four-or-more-digit
year position. -/
lemma findDateMatchG_output_none (dig word sep : Char → Bool)
    (hds : ∀ c, dig c = true → sep c = false) (hsp : sep ' ' = true)
    (m1 m2 m3 d1 d2 : Char) :
    ∀ (y : List Char), (∀ c ∈ y, dig c = true) →
      findDateMatchG dig word sep
        (y ++ ' ' :: m1 :: m2 :: m3 :: ' ' :: d1 :: d2 :: []) = none := by
  have hdigsp : dig ' ' = false := by
    cases hdig : dig ' ' with
    | false => rfl
    | true =>
      rw [hds ' ' hdig] at hsp
      exact Bool.noConfusion hsp
  intro y
  induction y with
  | nil =>
    intro _
    simp [findDateMatchG, matchDateAtG, hdigsp]
  | cons a t ih =>
    intro hall
    have htall : ∀ c ∈ t, dig c = true := fun c hc => hall c (List.mem_cons_of_mem a hc)
    have hrec := ih htall
    cases t with
    | nil =>
      simp [findDateMatchG, matchDateAtG, hdigsp] at hrec ⊢
    | cons b t2 =>
      cases t2 with
      | nil =>
        have hlen : ((d1 :: d2 :: []).takeWhile dig).length ≤ 2 := by
          simpa using length_takeWhile_le_self dig (d1 :: d2 :: [])
        have hdec : decide (4 ≤ ((d1 :: d2 :: []).takeWhile dig).length) = false := by
          apply decide_eq_false
          omega
        simp only [List.cons_append, List.nil_append] at hrec ⊢
        rw [findDateMatchG]
        rw [show matchDateAtG dig word sep
            (a :: b :: ' ' :: m1 :: m2 :: m3 :: ' ' :: d1 :: d2 :: []) = none by
          simp [matchDateAtG, hdec]]
        exact hrec
      | cons c t3 =>
        have htc : dig c = true := htall c (by simp)
        have hsep : sep c = false := hds c htc
        simp only [List.cons_append] at hrec ⊢
        rw [findDateMatchG, matchDateAtG_sep3_none dig word sep a b c _ hsep]
        exact hrec

/-- The ASCII-instance matcher is the generic matcher at the ASCII
classes. -/
lemma matchDateAt_eq_G (cs : List Char) :
    matchDateAt cs = matchDateAtG isDig isWordC isSepC cs := by
  rcases cs with _ | ⟨c1, _ | ⟨c2, _ | ⟨c3, _ | ⟨c4, _ | ⟨c5, _ | ⟨c6, _ | ⟨c7, rest⟩⟩⟩⟩⟩⟩⟩ <;> rfl

/-- The ASCII-instance search is the generic search at the ASCII
classes. -/
lemma findDateMatch_eq_G (cs : List Char) :
    findDateMatch cs = findDateMatchG isDig isWordC isSepC cs := by
  induction cs with
  | nil => rfl
  | cons c t ih =>
    rw [findDateMatch, findDateMatchG, matchDateAt_eq_G, ih]

/- ===== Claims C9 and C10 ===== -/

/-- C9: revert_galnet_date maps "07 SEP 3301" to "3301 SEP 07"
(year first), accepts either space or hyphen separators, and returns
any input that the date pattern does not match unchanged. -/
theorem claim_C9 :
    revert_galnet_date "07 SEP 3301" = "3301 SEP 07" ∧
    revert_galnet_date "07-SEP-3301" = "3301 SEP 07" ∧
    (∀ s : String, findDateMatch s.data = none → revert_galnet_date s = s) := by
  refine ⟨by decide, by decide, ?_⟩
  intro s hs
  rw [revert_galnet_date, hs]

/-- Closed witness for C9: a string the date pattern does not match is
returned unchanged. -/
theorem claim_C9_witness : revert_galnet_date "no date here" = "no date here" :=
  claim_C9.2.2 "no date here" (by decide)

/-- C10: the date reformatter is idempotent on every input string, for
every interpretation of the regex character classes in which no digit
is a separator and the space is a separator.  Both facts hold for the
regex crate's Unicode-aware classes (no Unicode decimal digit is
White_Space or the hyphen, and the ASCII space is White_Space), so the
program's reformatter is an instance of the quantified family, as is
the executable ASCII model (second conjunct); the reason is that any
reformatted output ends in an exactly-two-digit day that can never
satisfy the four-or-more-digit year position of the match pattern. -/
theorem claim_C10 :
    (∀ (dig word sep : Char → Bool),
      (∀ c, dig c = true → sep c = false) → sep ' ' = true →
      ∀ s : String,
        revert_galnet_dateG dig word sep (revert_galnet_dateG dig word sep s) =
          revert_galnet_dateG dig word sep s) ∧
    (∀ s : String, revert_galnet_date s = revert_galnet_dateG isDig isWordC isSepC s) := by
  constructor
  · intro dig word sep hds hsp s
    cases hm : findDateMatchG dig word sep s.data with
    | none =>
      have h1 : revert_galnet_dateG dig word sep s = s := by
        rw [revert_galnet_dateG, hm]
      rw [h1, revert_galnet_dateG, hm]
    | some r =>
      obtain ⟨d, m, y⟩ := r
      obtain ⟨⟨d1, d2, hd⟩, ⟨m1, m2, m3, hmm⟩, hy⟩ :=
        findDateMatchG_shape dig word sep s.data d m y hm
      have h1 : revert_galnet_dateG dig word sep s = String.mk (y ++ ' ' :: m ++ ' ' :: d) := by
        rw [revert_galnet_dateG, hm]
      have h2 : findDateMatchG dig word sep (String.mk (y ++ ' ' :: m ++ ' ' :: d)).data = none := by
        show findDateMatchG dig word sep (y ++ ' ' :: m ++ ' ' :: d) = none
        subst hd hmm
        have h3 := findDateMatchG_output_none dig word sep hds hsp m1 m2 m3 d1 d2 y hy
        simpa using h3
      rw [h1, revert_galnet_dateG, h2]
  · intro s
    rw [revert_galnet_date, revert_galnet_dateG, findDateMatch_eq_G]

/- ===== URL_UID_MATCHER =====
Rust: Regex::new(r"/uid/([^/#?]+)") searched over the absolute article
url; the capture is the maximal nonempty run of characters other than
slash, hash and question mark after the literal "/uid/". -/

/-- A character that terminates the uid capture. -/
def isUidStop (c : Char) : Bool := c.toNat == 47 || c.toNat == 35 || c.toNat == 63

/-- Try the uid pattern anchored at the head of the list. -/
def matchUidAt : List Char → Option (List Char)
  | '/' :: 'u' :: 'i' :: 'd' :: '/' :: rest =>
    let cap := rest.takeWhile (fun c => !isUidStop c)
    if cap.isEmpty then none else some cap
  | _ => none

/-- Leftmost-first search of the uid pattern. -/
def findUidMatch : List Char → Option (List Char)
  | [] => none
  | c :: cs =>
    match matchUidAt (c :: cs) with
    | some r => some r
    | none => findUidMatch cs

/-- Rust closure extract_galnet_url_uid inside extract_articles. -/
def extract_galnet_url_uid (url : String) : Option String :=
  (findUidMatch url.data).map String.mk

/- ===== Constants from common.rs and cmtypage_scraper.rs ===== -/

def ELITE_DANGEROUS_COMMUNITY_SITE : String := "https://community.elitedangerous.com"

def EXTRACT_LOCATION : String := "./galnet"

def DOWNLOADED_PAGES_FILE : String := EXTRACT_LOCATION ++ "/successful-pages.json"

def FAILED_PAGES_FILE : String := EXTRACT_LOCATION ++ "/failed-pages.json"

def EXTRACTED_FILES_LOCATION : String := EXTRACT_LOCATION ++ "/files"

/-- Rust fn with_site_base_url. -/
def with_site_base_url (url : String) : String := ELITE_DANGEROUS_COMMUNITY_SITE ++ url

/- ===== Data model (common.rs) ===== -/

/-- Rust struct Article. -/
structure Article where
  uid : String
  page_index : Nat
  title : String
  date : String
  url : String
  content : String
  extraction_date : String
  deprecated : Bool
deriving DecidableEq

/-- The Rust PartialEq impl for Article: content equality over uid,
title, content, url and page_index; extraction_date and deprecated are
excluded. -/
def Article.eq (a b : Article) : Bool :=
  a.uid == b.uid && a.title == b.title && a.content == b.content
    && a.url == b.url && a.page_index == b.page_index

/-- Rust enum GalnetError.  The boxed dyn-Error causes are embedded as
either a nested GalnetError (the scraper wraps a ParserError for a page
with no articles) or a NetworkError leaf carrying the transport message. -/
inductive GalnetError where
  | FileError (filename : String) (cause : String)
  | ParserError (cause : String)
  | ScraperError (url : String) (cause : GalnetError)
  | NetworkError (msg : String)
deriving DecidableEq

/-- The Display impl for GalnetError (used to stringify errors into the
failed-pages map). -/
def GalnetError.msg : GalnetError → String
  | .FileError filename cause => "Error while scraping from \"" ++ filename ++ "\": " ++ cause
  | .ParserError cause => "Error while parsing: " ++ cause
  | .ScraperError url cause => "Error while scraping from \"" ++ url ++ "\": " ++ cause.msg
  | .NetworkError m => m

/-- Rust struct ErroredPage. -/
structure ErroredPage where
  url : String
  errors : List String
deriving DecidableEq

/- ===== Abstracted page markup =====
The HTML parsing and selector engine are external capabilities; a
fetched page is embedded as what the selectors would produce: the
".article" blocks in document order, each carrying the text or href the
per-field selectors would find (none models a selector miss), plus the
"a.galnetLinkBoxLink" hrefs and the raw html used in error messages. -/

/-- One ".article" block: first match of each per-field selector. -/
structure ArticleBlock where
  urlHref : Option String
  titleText : Option String
  dateText : Option String
  contentText : Option String
deriving DecidableEq

/-- A parsed page document. -/
structure PageHtml where
  blocks : List ArticleBlock
  dateLinks : List String
  rawHtml : String
deriving DecidableEq

/- ===== Article Extractor (extract_articles) ===== -/

/-- The body of the per-block closure in Rust fn extract_articles:
look up url, uid, title, date, content in that order, short-circuiting
on the first miss; on success build the Article with a fresh
extraction_date (the wall clock is the parameter now) and
deprecated = false. -/
def extractOneArticle (now : String) (page_index : Nat) (b : ArticleBlock) :
    Except GalnetError Article :=
  match b.urlHref with
  | none => .error (.ParserError "Couldn\x27t find article url")
  | some href =>
    match extract_galnet_url_uid (with_site_base_url href) with
    | none => .error (.ParserError
        ("Couldn\x27t find article \"" ++ with_site_base_url href ++ "\" uid"))
    | some uid =>
      match b.titleText with
      | none => .error (.ParserError ("Couldn\x27t find article \"" ++ uid ++ "\" title"))
      | some title =>
        match b.dateText with
        | none => .error (.ParserError ("Couldn\x27t find article \"" ++ uid ++ "\" date"))
        | some date =>
          match b.contentText with
          | none => .error (.ParserError ("Couldn\x27t find article \"" ++ uid ++ "\" content"))
          | some content =>
            .ok { uid := uid, page_index := page_index, title := title, date := date,
                  url := with_site_base_url href, content := content,
                  extraction_date := now, deprecated := false }

/-- Rust fn extract_articles: enumerate the article blocks in document
order and run the per-block extraction; the enumeration index becomes
page_index. -/
def extract_articles (now : String) (blocks : List ArticleBlock) :
    List (Except GalnetError Article) :=
  blocks.enum.map (fun p => extractOneArticle now p.1 p.2)

/- ===== Page Crawler (extract_page) ===== -/

/-- Rust HashSet of Article insertion.  The Hash impl hashes uid only
and the PartialEq impl is Article.eq, so inserting an article that is
Article.eq to a present element keeps the present element; otherwise
the article is added. -/
def insertArticle (s : List Article) (a : Article) : List Article :=
  if s.any (fun b => Article.eq b a) then s else s ++ [a]

/-- Rust HashSet of String insertion. -/
def insertStr (s : List String) (x : String) : List String :=
  if x ∈ s then s else s ++ [x]

/-- Rust struct PageExtraction; the two HashSets are embedded as
duplicate-free lists in insertion order. -/
structure PageExtraction where
  url : String
  articles : List Article
  links : List String
  errors : List GalnetError
deriving DecidableEq

/-- Rust fn extract_date_links applied to the selector output: resolve
each trimmed href against the site base and collect into a set. -/
def extract_date_links (hrefs : List String) : List String :=
  hrefs.foldl (fun acc href => insertStr acc (with_site_base_url href.trim)) []

/-- One step of the for_each loop of extract_page over the extraction
results: an ok article is inserted into the article set, an error is
pushed onto the error list. -/
def collectStep (acc : List Article × List GalnetError) (r : Except GalnetError Article) :
    List Article × List GalnetError :=
  match r with
  | .ok a => (insertArticle acc.1 a, acc.2)
  | .error e => (acc.1, acc.2 ++ [e])

/-- The whole for_each loop of extract_page. -/
def collectResults (rs : List (Except GalnetError Article)) :
    List Article × List GalnetError :=
  rs.foldl collectStep ([], [])

/-- Rust async fn extract_page.  The fetch outcome is a parameter: an
error models a failed transport; ok carries the parsed page.  A fetch
failure yields one ScraperError wrapping the transport error; an empty
article set after extraction yields one ScraperError wrapping a
ParserError. -/
def extract_page (url : String) (fetched : Except String PageHtml) (now : String) :
    PageExtraction :=
  match fetched with
  | .error e =>
    { url := url, articles := [], links := [],
      errors := [.ScraperError url (.NetworkError e)] }
  | .ok page =>
    let links := extract_date_links page.dateLinks
    let res := collectResults (extract_articles now page.blocks)
    let errors :=
      if res.1.isEmpty then
        res.2 ++ [.ScraperError url
          (.ParserError ("Could not find any article for this page:\n" ++ page.rawHtml))]
      else res.2
    { url := url, articles := res.1, links := links, errors := errors }

/- ===== Change-Aware Persister (extract_page_to_file) ===== -/

/-- Outcome of deserialize_from_file for an article path: a stored
record, a missing file (NotFound maps to Ok(None)), or any other io or
decode failure. -/
inductive ReadResult where
  | found (a : Article)
  | missing
  | ioError (msg : String)
deriving DecidableEq

/-- The filesystem oracle: what a read of a path returns, and whether a
write to a path succeeds (none) or fails with a message (some). -/
structure FileSys where
  read : String → ReadResult
  write : String → Option String

/-- The filename closure gen_article_filename in extract_page_to_file. -/
def gen_article_filename (a : Article) : String :=
  EXTRACTED_FILES_LOCATION ++ "/" ++ revert_galnet_date a.date ++ " - "
    ++ toString a.page_index ++ " - " ++ a.uid ++ ".json"

/-- The per-article body of the persistence loop in
extract_page_to_file.  Returns the successful writes performed (path
and record, in order) and the FileErrors pushed.  Mirrors the source:
a stored content-equal record short-circuits with no write; a stored
differing record is first archived with deprecated forced to true under
a timestamp-suffixed name, then the live path is written; a missing
file or a failed read falls through to the live write alone (the read
failure is not recorded anywhere). -/
def persistArticle (fs : FileSys) (nowTs : String) (a : Article) :
    List (String × Article) × List GalnetError :=
  let filename := gen_article_filename a
  let liveWrite : List (String × Article) × List GalnetError :=
    match fs.write filename with
    | none => ([(filename, a)], [])
    | some cause => ([], [.FileError filename cause])
  match fs.read filename with
  | .found stored =>
    if Article.eq stored a then
      ([], [])
    else
      let backup := filename ++ " - " ++ nowTs
      let archived := { stored with deprecated := true }
      let archiveWrite : List (String × Article) × List GalnetError :=
        match fs.write backup with
        | none => ([(backup, archived)], [])
        | some cause => ([], [.FileError backup cause])
      (archiveWrite.1 ++ liveWrite.1, archiveWrite.2 ++ liveWrite.2)
  | .missing => liveWrite
  | .ioError _ => liveWrite

/-- One iteration of the persistence loop of extract_page_to_file:
accumulate the writes performed and the FileErrors pushed for one
article. -/
def persistStep (fs : FileSys) (nowTs : String)
    (acc : List (String × Article) × List GalnetError) (a : Article) :
    List (String × Article) × List GalnetError :=
  (acc.1 ++ (persistArticle fs nowTs a).1, acc.2 ++ (persistArticle fs nowTs a).2)

/-- Rust async fn extract_page_to_file: extract the page, persist each
article of the set, and append the persistence FileErrors to the page
error list.  Also returns the successful writes performed. -/
def extract_page_to_file (url : String) (fetched : Except String PageHtml)
    (now nowTs : String) (fs : FileSys) :
    PageExtraction × List (String × Article) :=
  let pe := extract_page url fetched now
  let res := pe.articles.foldl (persistStep fs nowTs) ([], [])
  ({ pe with errors := pe.errors ++ res.2 }, res.1)

/- ===== Run Orchestrator (extract_all_pages) ===== -/

/-- The stringified error record stored in the failed-pages map. -/
def erroredPageOf (pe : PageExtraction) : ErroredPage :=
  { url := pe.url, errors := pe.errors.map GalnetError.msg }

/-- HashMap insert keyed by url: overwrite an existing entry or append
a new one. -/
def mapInsert (m : List (String × ErroredPage)) (k : String) (v : ErroredPage) :
    List (String × ErroredPage) :=
  if m.any (fun kv => kv.1 == k) then
    m.map (fun kv => if kv.1 == k then (k, v) else kv)
  else m ++ [(k, v)]

/-- The bookkeeping update for one page extraction, from the for_each
reconciliation loop of extract_all_pages: an error-free page is removed
from failed_pages and added to downloaded_pages; a page with errors is
inserted into failed_pages with its stringified error list. -/
def reconcileStep (st : List String × List (String × ErroredPage)) (pe : PageExtraction) :
    List String × List (String × ErroredPage) :=
  if pe.errors.isEmpty then
    (insertStr st.1 pe.url, st.2.filter (fun kv => !(kv.1 == pe.url)))
  else
    (st.1, mapInsert st.2 pe.url (erroredPageOf pe))

/-- The whole reconciliation loop. -/
def reconcile (downloaded : List String) (failed : List (String × ErroredPage))
    (pes : List PageExtraction) : List String × List (String × ErroredPage) :=
  pes.foldl reconcileStep (downloaded, failed)

/-- One run of the bookkeeping phase: extract_all_pages starts every
run with a fresh empty failed_pages map (the failed-pages file is never
read back) and the downloaded_pages set read from disk. -/
def run_bookkeeping (initialDownloaded : List String) (pes : List PageExtraction) :
    List String × List (String × ErroredPage) :=
  reconcile initialDownloaded [] pes

/-- The crawl phase of extract_all_pages: the sequential branch awaits
extract_page_to_file for each link, the concurrent branch joins
extract_page futures (which never persist).  Returns the page
extractions and all article-file writes performed. -/
def run_crawl (sequentially : Bool) (links : List String)
    (fetchPage : String → Except String PageHtml) (now nowTs : String) (fs : FileSys) :
    List PageExtraction × List (String × Article) :=
  if sequentially then
    links.foldl
      (fun acc link =>
        let r := extract_page_to_file link (fetchPage link) now nowTs fs
        (acc.1 ++ [r.1], acc.2 ++ r.2))
      ([], [])
  else
    (links.map (fun link => extract_page link (fetchPage link) now), [])

/-- The environment of one orchestrator run: outcomes of the root
fetch, of reading the downloaded-pages file (a missing file already
folded to an empty list), of creating the extraction directory, the
per-link fetch outcomes, the article filesystem, and the outcomes of
the two bookkeeping writes. -/
structure RunEnv where
  rootFetch : Except String PageHtml
  downloadedRead : Except String (List String)
  createDirErr : Option String
  fetchPage : String → Except String PageHtml
  fs : FileSys
  writeDownloadedErr : Option String
  writeFailedErr : Option String

/-- Rust pub async fn extract_all_pages.  Every step marked with the
question-mark operator in the source propagates its failure as the
function result; the crawl itself never fails.  On success the final
bookkeeping state (downloaded set, failed map) is returned, modelling
what is serialized to the two bookkeeping files (the source sorts both
before writing; the sort does not affect the modelled claims). -/
def extract_all_pages (sequentially : Bool) (now nowTs : String) (env : RunEnv) :
    Except String (List String × List (String × ErroredPage)) :=
  match env.rootFetch with
  | .error e => .error e
  | .ok rootPage =>
    match env.downloadedRead with
    | .error e => .error e
    | .ok downloaded0 =>
      let extracted := extract_date_links rootPage.dateLinks
      let links := extracted.filter (fun l => !downloaded0.contains l)
      match env.createDirErr with
      | some e => .error e
      | none =>
        let pes := (run_crawl sequentially links env.fetchPage now nowTs env.fs).1
        let st := reconcile downloaded0 [] pes
        match env.writeDownloadedErr with
        | some e => .error e
        | none =>
          match env.writeFailedErr with
          | some e => .error e
          | none => .ok st

/- ===== Concrete fixtures used by witnesses and counterexamples ===== -/

/-- A well-formed article block. -/
def demoBlock : ArticleBlock :=
  { urlHref := some "/galnet/uid/abc", titleText := some "Title",
    dateText := some "01 JAN 3301", contentText := some "Body" }

/-- A page with a single well-formed article block. -/
def demoPage : PageHtml := { blocks := [demoBlock], dateLinks := [], rawHtml := "html" }

/-- The article extract_articles produces from demoBlock at index 0
with wall clock "NOW". -/
def demoArticle : Article :=
  { uid := "abc", page_index := 0, title := "Title", date := "01 JAN 3301",
    url := "https://community.elitedangerous.com/galnet/uid/abc",
    content := "Body", extraction_date := "NOW", deprecated := false }

/-- A fetch capability that returns demoPage for every url. -/
def demoFetch : String → Except String PageHtml := fun _ => .ok demoPage

/-- A filesystem with no stored records where every write succeeds. -/
def fsAllOk : FileSys := { read := fun _ => .missing, write := fun _ => none }

/- ===== Claim C1 ===== -/

/-- C1 (code bug): sequential and concurrent modes do not have the same
result semantics.  On a run with one link whose page holds one valid
article, sequential mode (extract_page_to_file) writes the article
record to disk, while concurrent mode (extract_page, which never calls
the persister) writes nothing at all. -/
theorem claim_C1 :
    (run_crawl true ["L"] demoFetch "NOW" "TS" fsAllOk).2 =
      [("./galnet/files/3301 JAN 01 - 0 - abc.json", demoArticle)] ∧
    (run_crawl false ["L"] demoFetch "NOW" "TS" fsAllOk).2 = [] := by
  constructor
  · decide
  · decide

/- ===== Claim C2 ===== -/

/-- C2: when the deterministic filename of an article already holds a
stored record, a content-equal stored record makes the persister write
nothing at all, and a differing stored record makes it first write the
previous record with deprecated set to true to the timestamp-suffixed
archive path and then write the new article to the live path. -/
theorem claim_C2 (fs : FileSys) (nowTs : String) (a stored : Article)
    (hread : fs.read (gen_article_filename a) = .found stored) :
    (Article.eq stored a = true → persistArticle fs nowTs a = ([], [])) ∧
    (Article.eq stored a = false →
      fs.write (gen_article_filename a ++ " - " ++ nowTs) = none →
      fs.write (gen_article_filename a) = none →
      persistArticle fs nowTs a =
        ([(gen_article_filename a ++ " - " ++ nowTs, { stored with deprecated := true }),
          (gen_article_filename a, a)], [])) := by
  constructor
  · intro heq
    simp [persistArticle, hread, heq]
  · intro hne hw1 hw2
    simp [persistArticle, hread, hne, hw1, hw2]

/-- A stored record differing from demoArticle in title (and in
extraction_date). -/
def storedOther : Article := { demoArticle with title := "Old", extraction_date := "OLD" }

/-- A stored record content-equal to demoArticle (only the timestamp
differs). -/
def storedSame : Article := { demoArticle with extraction_date := "OLD" }

/-- A filesystem holding storedOther at the live path of demoArticle;
all writes succeed. -/
def fsStored : FileSys :=
  { read := fun p => if p == gen_article_filename demoArticle then .found storedOther else .missing,
    write := fun _ => none }

/-- A filesystem holding storedSame at the live path of demoArticle. -/
def fsStoredEq : FileSys :=
  { read := fun p => if p == gen_article_filename demoArticle then .found storedSame else .missing,
    write := fun _ => none }

/-- Closed witness for C2 at concrete inputs: the content-equal case
writes nothing, the differing case archives the old record first and
then writes the live record. -/
theorem claim_C2_witness :
    persistArticle fsStoredEq "TS" demoArticle = ([], []) ∧
    persistArticle fsStored "TS" demoArticle =
      ([(gen_article_filename demoArticle ++ " - " ++ "TS", { storedOther with deprecated := true }),
        (gen_article_filename demoArticle, demoArticle)], []) := by
  constructor
  · exact (claim_C2 fsStoredEq "TS" demoArticle storedSame (by decide)).1 (by decide)
  · exact (claim_C2 fsStored "TS" demoArticle storedOther (by decide)).2 (by decide) rfl rfl

/- ===== Claim C4 ===== -/

/-- A filesystem whose reads fail with an io error and whose writes
succeed. -/
def fsReadErr : FileSys :=
  { read := fun _ => .ioError "permission denied", write := fun _ => none }

/-- C4 counterexample: an io failure while reading the existing record
does not become a FileError.  With a filesystem whose read fails, the
persister records no error at all (the error list is empty) and simply
writes the new article fresh, so a persistence-related io failure is
silently dropped, refuting the claim for the read step. -/
theorem claim_C4_cex :
    persistArticle fsReadErr "TS" demoArticle =
      ([("./galnet/files/3301 JAN 01 - 0 - abc.json", demoArticle)], []) := by
  decide

/-- The FileError contribution of one attempted write: nothing when
the write succeeds, the FileError naming the path when it fails. -/
def writeErrorsOf (fs : FileSys) (path : String) : List GalnetError :=
  match fs.write path with
  | none => []
  | some cause => [.FileError path cause]

/-- The persistence loop accumulates, over the article set, exactly
the concatenation of the per-article writes and of the per-article
FileErrors. -/
lemma persistStep_fold (fs : FileSys) (nowTs : String) :
    ∀ (l : List Article) (acc : List (String × Article) × List GalnetError),
      l.foldl (persistStep fs nowTs) acc =
        (acc.1 ++ (l.map (fun a => (persistArticle fs nowTs a).1)).flatten,
         acc.2 ++ (l.map (fun a => (persistArticle fs nowTs a).2)).flatten) := by
  intro l
  induction l with
  | nil => intro acc; simp
  | cons a t ih =>
    intro acc
    rw [List.foldl_cons, ih]
    simp [persistStep, List.append_assoc]

/-- C4 as amended: in every configuration the persister's error list
is exactly the FileErrors, in attempt order, of the attempted writes
that failed: a differing stored record attempts the archive write and
then the live write, a missing file or a failed read attempts the live
write alone, and a content-equal stored record attempts nothing.  So
every failed archive or live write surfaces as a FileError naming its
filename, no write failure is dropped, and extract_page_to_file
appends exactly these per-article persistence errors to the page's
error list (marking the page failed for bookkeeping). -/
theorem claim_C4 (fs : FileSys) (nowTs : String) (a : Article) :
    (∀ stored, fs.read (gen_article_filename a) = .found stored →
      Article.eq stored a = false →
      (persistArticle fs nowTs a).2 =
        writeErrorsOf fs (gen_article_filename a ++ " - " ++ nowTs) ++
          writeErrorsOf fs (gen_article_filename a)) ∧
    (fs.read (gen_article_filename a) = .missing →
      (persistArticle fs nowTs a).2 = writeErrorsOf fs (gen_article_filename a)) ∧
    (∀ msg, fs.read (gen_article_filename a) = .ioError msg →
      (persistArticle fs nowTs a).2 = writeErrorsOf fs (gen_article_filename a)) ∧
    (∀ stored, fs.read (gen_article_filename a) = .found stored →
      Article.eq stored a = true →
      (persistArticle fs nowTs a).2 = []) ∧
    (∀ url fetched now,
      (extract_page_to_file url fetched now nowTs fs).1.errors =
        (extract_page url fetched now).errors ++
          ((extract_page url fetched now).articles.map
            (fun b => (persistArticle fs nowTs b).2)).flatten) := by
  refine ⟨?_, ?_, ?_, ?_, ?_⟩
  · intro stored hread hne
    cases hw1 : fs.write (gen_article_filename a ++ " - " ++ nowTs) <;>
      cases hw2 : fs.write (gen_article_filename a) <;>
        simp [persistArticle, writeErrorsOf, hread, hne, hw1, hw2]
  · intro hread
    cases hw : fs.write (gen_article_filename a) <;>
      simp [persistArticle, writeErrorsOf, hread, hw]
  · intro msg hread
    cases hw : fs.write (gen_article_filename a) <;>
      simp [persistArticle, writeErrorsOf, hread, hw]
  · intro stored hread heq
    simp [persistArticle, hread, heq]
  · intro url fetched now
    simp [extract_page_to_file, persistStep_fold]

/-- A filesystem holding storedOther at the live path whose writes all
fail. -/
def fsWriteFail : FileSys :=
  { read := fun p => if p == gen_article_filename demoArticle then .found storedOther else .missing,
    write := fun _ => some "disk full" }

/-- Closed witness for the amended C4: for a differing stored record
with both writes failing, the persister's error list is exactly the
two FileErrors of the archive and live writes, and
extract_page_to_file appends the per-article persistence errors to the
page's error list. -/
theorem claim_C4_witness :
    (persistArticle fsWriteFail "TS" demoArticle).2 =
      writeErrorsOf fsWriteFail (gen_article_filename demoArticle ++ " - " ++ "TS") ++
        writeErrorsOf fsWriteFail (gen_article_filename demoArticle) ∧
    writeErrorsOf fsWriteFail (gen_article_filename demoArticle) =
      [.FileError (gen_article_filename demoArticle) "disk full"] ∧
    (extract_page_to_file "u" (.ok demoPage) "NOW" "TS" fsWriteFail).1.errors =
      (extract_page "u" (.ok demoPage) "NOW").errors ++
        ((extract_page "u" (.ok demoPage) "NOW").articles.map
          (fun b => (persistArticle fsWriteFail "TS" b).2)).flatten :=
  ⟨(claim_C4 fsWriteFail "TS" demoArticle).1 storedOther (by decide) (by decide),
   rfl,
   (claim_C4 fsWriteFail "TS" demoArticle).2.2.2.2 "u" (.ok demoPage) "NOW"⟩

/- ===== Claim C5 ===== -/

/-- A page holding the same article block twice (both blocks share the
uid "abc"). -/
def dupPage : PageHtml := { blocks := [demoBlock, demoBlock], dateLinks := [], rawHtml := "h" }

/-- C5 counterexample: two article blocks sharing a uid do not collapse
to one Article.  The article set insert compares with Article.eq, which
includes page_index, and the two blocks get page_index 0 and 1, so the
page extraction holds two articles with uid "abc", not exactly one. -/
theorem claim_C5_cex :
    ((extract_page "u" (.ok dupPage) "NOW").articles.countP (fun a => a.uid == "abc")) = 2 := by
  decide

/- ===== Claim C5 amended ===== -/

/-- Structure of a successful per-block extraction: the article carries
the enumeration index as page_index, the parameter wall clock as
extraction_date, and deprecated = false. -/
lemma extractOneArticle_ok (now : String) (i : Nat) (b : ArticleBlock) (a : Article)
    (h : extractOneArticle now i b = .ok a) :
    a.page_index = i ∧ a.extraction_date = now ∧ a.deprecated = false := by
  rw [extractOneArticle] at h
  repeat' split at h
  all_goals first
  | exact Except.noConfusion h
  | (injection h with h; subst h; exact ⟨rfl, rfl, rfl⟩)

/-- C5 as amended: the article-set insert collapses a new article into
an existing one only when the two are content-equal (Article.eq over
uid, title, content, url and page_index), in which case the first-seen
element is kept; and two distinct blocks can never produce content-equal
articles, because their page_index values differ, so duplicate-uid
blocks each contribute their own Article. -/
theorem claim_C5 :
    (∀ (s : List Article) (a : Article),
      (s.any (fun b => Article.eq b a) = true → insertArticle s a = s) ∧
      (s.any (fun b => Article.eq b a) = false → insertArticle s a = s ++ [a])) ∧
    (∀ (now : String) (i j : Nat) (bi bj : ArticleBlock) (a b : Article),
      extractOneArticle now i bi = .ok a → extractOneArticle now j bj = .ok b →
      i ≠ j → Article.eq a b = false) := by
  constructor
  · intro s a
    constructor
    · intro h; simp [insertArticle, h]
    · intro h; simp [insertArticle, h]
  · intro now i j bi bj a b ha hb hij
    obtain ⟨hpa, _, _⟩ := extractOneArticle_ok now i bi a ha
    obtain ⟨hpb, _, _⟩ := extractOneArticle_ok now j bj b hb
    have hne : (a.page_index == b.page_index) = false := by
      rw [hpa, hpb]
      exact beq_eq_false_iff_ne.mpr hij
    simp [Article.eq, hne]

/-- Closed witness for the amended C5: inserting into the empty set
appends, and the two articles extracted from the same block at indices
0 and 1 are not content-equal. -/
theorem claim_C5_witness :
    insertArticle [] demoArticle = [] ++ [demoArticle] ∧
    Article.eq demoArticle { demoArticle with page_index := 1 } = false := by
  constructor
  · exact (claim_C5.1 [] demoArticle).2 (by decide)
  · exact claim_C5.2 "NOW" 0 1 demoBlock demoBlock demoArticle
      { demoArticle with page_index := 1 } rfl rfl (by decide)

/- ===== Claim C7 ===== -/

/-- The errors among a list of extraction results, in order. -/
def errsOf (rs : List (Except GalnetError Article)) : List GalnetError :=
  rs.filterMap (fun r => match r with | .error e => some e | .ok _ => none)

lemma collect_all_errors :
    ∀ (rs : List (Except GalnetError Article)) (acc : List Article × List GalnetError),
      (∀ r ∈ rs, ∀ a, r ≠ .ok a) →
      rs.foldl collectStep acc = (acc.1, acc.2 ++ errsOf rs) := by
  intro rs
  induction rs with
  | nil => intro acc _; simp [errsOf]
  | cons r t ih =>
    intro acc hall
    cases r with
    | ok a => exact absurd rfl (hall (.ok a) (by simp) a)
    | error e =>
      have hstep : collectStep acc (.error e) = (acc.1, acc.2 ++ [e]) := rfl
      rw [List.foldl_cons, hstep, ih (acc.1, acc.2 ++ [e]) (fun r hr => hall r (by simp [hr]))]
      simp [errsOf]

/-- C7: a fetched page none of whose blocks extracts successfully (in
particular a page with no article blocks at all) yields a
PageExtraction with zero articles whose error list is the field-level
errors followed by exactly one page-level error wrapping a ParserError
for the page. -/
theorem claim_C7 (url now : String) (page : PageHtml)
    (h : ∀ r ∈ extract_articles now page.blocks, ∀ a, r ≠ .ok a) :
    (extract_page url (.ok page) now).articles = [] ∧
    (extract_page url (.ok page) now).errors =
      errsOf (extract_articles now page.blocks) ++
        [.ScraperError url (.ParserError
          ("Could not find any article for this page:\n" ++ page.rawHtml))] := by
  have hc : collectResults (extract_articles now page.blocks) =
      ([], errsOf (extract_articles now page.blocks)) := by
    have h2 := collect_all_errors (extract_articles now page.blocks) ([], []) h
    simpa [collectResults] using h2
  constructor
  · simp [extract_page, hc]
  · simp [extract_page, hc]

/-- A page with no article blocks at all. -/
def emptyPage : PageHtml := { blocks := [], dateLinks := [], rawHtml := "nothing" }

/-- Closed witness for C7: a page with no article blocks yields zero
articles and exactly one page-level error. -/
theorem claim_C7_witness :
    (extract_page "u" (.ok emptyPage) "NOW").articles = [] ∧
    (extract_page "u" (.ok emptyPage) "NOW").errors =
      errsOf (extract_articles "NOW" emptyPage.blocks) ++
        [.ScraperError "u" (.ParserError
          ("Could not find any article for this page:\n" ++ emptyPage.rawHtml))] :=
  claim_C7 "u" "NOW" emptyPage (by simp [extract_articles, emptyPage])

/- ===== Claim C8 ===== -/

/-- C8: the per-block extractor looks fields up in the fixed order url,
uid, title, date, content and returns, at the first miss, a distinct
error naming that field (from uid onward also naming the article
identity); a successful extraction is the fully determined Article with
extraction_date equal to the wall clock parameter and deprecated set to
false, and extract_articles gives each block the zero-based position of
the block in document order as its page_index. -/
theorem claim_C8 (now : String) (i : Nat) (b : ArticleBlock) :
    (b.urlHref = none →
      extractOneArticle now i b = .error (.ParserError "Couldn\x27t find article url")) ∧
    (∀ href, b.urlHref = some href →
      extract_galnet_url_uid (with_site_base_url href) = none →
      extractOneArticle now i b = .error (.ParserError
        ("Couldn\x27t find article \"" ++ with_site_base_url href ++ "\" uid"))) ∧
    (∀ href uid, b.urlHref = some href →
      extract_galnet_url_uid (with_site_base_url href) = some uid →
      b.titleText = none →
      extractOneArticle now i b = .error (.ParserError
        ("Couldn\x27t find article \"" ++ uid ++ "\" title"))) ∧
    (∀ href uid title, b.urlHref = some href →
      extract_galnet_url_uid (with_site_base_url href) = some uid →
      b.titleText = some title → b.dateText = none →
      extractOneArticle now i b = .error (.ParserError
        ("Couldn\x27t find article \"" ++ uid ++ "\" date"))) ∧
    (∀ href uid title date, b.urlHref = some href →
      extract_galnet_url_uid (with_site_base_url href) = some uid →
      b.titleText = some title → b.dateText = some date → b.contentText = none →
      extractOneArticle now i b = .error (.ParserError
        ("Couldn\x27t find article \"" ++ uid ++ "\" content"))) ∧
    (∀ href uid title date content, b.urlHref = some href →
      extract_galnet_url_uid (with_site_base_url href) = some uid →
      b.titleText = some title → b.dateText = some date → b.contentText = some content →
      extractOneArticle now i b = .ok
        { uid := uid, page_index := i, title := title, date := date,
          url := with_site_base_url href, content := content,
          extraction_date := now, deprecated := false }) ∧
    (∀ (blocks : List ArticleBlock) (j : Nat),
      (extract_articles now blocks).get? j = (blocks.get? j).map (extractOneArticle now j)) := by
  refine ⟨?_, ?_, ?_, ?_, ?_, ?_, ?_⟩
  · intro h1; simp [extractOneArticle, h1]
  · intro href h1 h2; simp [extractOneArticle, h1, h2]
  · intro href uid h1 h2 h3; simp [extractOneArticle, h1, h2, h3]
  · intro href uid title h1 h2 h3 h4; simp [extractOneArticle, h1, h2, h3, h4]
  · intro href uid title date h1 h2 h3 h4 h5; simp [extractOneArticle, h1, h2, h3, h4, h5]
  · intro href uid title date content h1 h2 h3 h4 h5
    simp [extractOneArticle, h1, h2, h3, h4, h5]
  · intro blocks j
    simp only [extract_articles, List.get?_eq_getElem?, List.getElem?_map, List.getElem?_enum]
    cases blocks[j]? <;> rfl

/-- A block missing its title element. -/
def noTitleBlock : ArticleBlock :=
  { urlHref := some "/galnet/uid/xyz", titleText := none,
    dateText := some "02 FEB 3302", contentText := some "B" }

/-- Closed witness for C8: the success shape at index 3, the
title-field miss naming the uid, and the indexing law at index 1 of a
two-block list. -/
theorem claim_C8_witness :
    extractOneArticle "NOW" 3 demoBlock = .ok
      { uid := "abc", page_index := 3, title := "Title", date := "01 JAN 3301",
        url := with_site_base_url "/galnet/uid/abc", content := "Body",
        extraction_date := "NOW", deprecated := false } ∧
    extractOneArticle "NOW" 0 noTitleBlock = .error (.ParserError
      ("Couldn\x27t find article \"" ++ "xyz" ++ "\" title")) ∧
    (extract_articles "NOW" [demoBlock, noTitleBlock]).get? 1 =
      ([demoBlock, noTitleBlock].get? 1).map (extractOneArticle "NOW" 1) := by
  refine ⟨?_, ?_, ?_⟩
  · exact (claim_C8 "NOW" 3 demoBlock).2.2.2.2.2.1 "/galnet/uid/abc" "abc" "Title"
      "01 JAN 3301" "Body" rfl rfl rfl rfl rfl
  · exact (claim_C8 "NOW" 0 noTitleBlock).2.2.1 "/galnet/uid/xyz" "xyz" rfl rfl rfl
  · exact (claim_C8 "NOW" 0 noTitleBlock).2.2.2.2.2.2 [demoBlock, noTitleBlock] 1

/- ===== Claim C6 ===== -/

/-- A run environment whose root fetch fails and everything else
succeeds. -/
def envRootFail : RunEnv :=
  { rootFetch := .error "connection refused", downloadedRead := .ok [],
    createDirErr := none, fetchPage := fun _ => .error "x", fs := fsAllOk,
    writeDownloadedErr := none, writeFailedErr := none }

/-- C6 counterexample: the orchestrator does terminate with a fatal
error for some outcome of the root fetch.  A failed root fetch makes
extract_all_pages return the error (the question-mark operator in the
source propagates it) before any bookkeeping state is computed or
persisted, refuting the claim that the run always completes. -/
theorem claim_C6_cex :
    extract_all_pages true "NOW" "TS" envRootFail = .error "connection refused" := rfl

/-- C6 as amended: per-page crawl outcomes are never fatal — whenever
the root fetch, the downloaded-pages read, the directory creation and
the two bookkeeping writes succeed, the run completes with the
reconciled bookkeeping state, whatever every per-page fetch or
persistence did; but a failure of any of those run-level steps aborts
the run with an error (see the counterexample). -/
theorem claim_C6 (sequentially : Bool) (now nowTs : String) (env : RunEnv)
    (rootPage : PageHtml) (downloaded0 : List String)
    (hroot : env.rootFetch = .ok rootPage)
    (hdl : env.downloadedRead = .ok downloaded0)
    (hdir : env.createDirErr = none)
    (hw1 : env.writeDownloadedErr = none)
    (hw2 : env.writeFailedErr = none) :
    extract_all_pages sequentially now nowTs env =
      .ok (reconcile downloaded0 []
        ((run_crawl sequentially
          ((extract_date_links rootPage.dateLinks).filter (fun l => !downloaded0.contains l))
          env.fetchPage now nowTs env.fs).1)) := by
  simp [extract_all_pages, hroot, hdl, hdir, hw1, hw2]

/-- A root page discovering no links. -/
def emptyRootPage : PageHtml := { blocks := [], dateLinks := [], rawHtml := "root" }

/-- A run environment in which every run-level step succeeds but every
per-page fetch fails. -/
def envPagesFail : RunEnv :=
  { rootFetch := .ok emptyRootPage, downloadedRead := .ok [],
    createDirErr := none, fetchPage := fun _ => .error "net down", fs := fsAllOk,
    writeDownloadedErr := none, writeFailedErr := none }

/-- Closed witness for the amended C6: with the run-level steps
succeeding the run completes with the reconciled state even though
every per-page fetch fails. -/
theorem claim_C6_witness :
    extract_all_pages false "NOW" "TS" envPagesFail =
      .ok (reconcile [] []
        ((run_crawl false
          ((extract_date_links emptyRootPage.dateLinks).filter (fun l => !([] : List String).contains l))
          envPagesFail.fetchPage "NOW" "TS" envPagesFail.fs).1)) :=
  claim_C6 false "NOW" "TS" envPagesFail emptyRootPage [] rfl rfl rfl rfl rfl

/- ===== Claim C3 ===== -/

lemma isEmpty_false_of_ne_nil {α : Type} {l : List α} (h : l ≠ []) : l.isEmpty = false := by
  cases l with
  | nil => exact absurd rfl h
  | cons a t => rfl

/-- Closed form of the bookkeeping reconciliation loop when the crawled
urls are pairwise distinct, absent from the downloaded set and absent
from the failed map: the error-free pages are appended to the
downloaded set in order and the erroring pages are appended to the
failed map in order. -/
lemma reconcile_closed :
    ∀ (pes : List PageExtraction) (dl : List String) (fl : List (String × ErroredPage)),
      (∀ pe ∈ pes, pe.url ∉ dl) →
      (∀ pe ∈ pes, ∀ kv ∈ fl, kv.1 ≠ pe.url) →
      (pes.map PageExtraction.url).Nodup →
      pes.foldl reconcileStep (dl, fl) =
        (dl ++ (pes.filter (fun pe => pe.errors.isEmpty)).map PageExtraction.url,
         fl ++ (pes.filter (fun pe => !pe.errors.isEmpty)).map
           (fun pe => (pe.url, erroredPageOf pe))) := by
  intro pes
  induction pes with
  | nil => intro dl fl _ _ _; simp
  | cons pe t ih =>
    intro dl fl h1 h2 h3
    have hpedl : pe.url ∉ dl := h1 pe (List.mem_cons_self pe t)
    have hmap : pe.url ∉ t.map PageExtraction.url ∧ (t.map PageExtraction.url).Nodup := by
      rw [List.map_cons, List.nodup_cons] at h3
      exact h3
    by_cases he : pe.errors.isEmpty = true
    · have hfil : fl.filter (fun kv => !(kv.1 == pe.url)) = fl := by
        apply List.filter_eq_self.mpr
        intro kv hkv
        simpa using h2 pe (List.mem_cons_self pe t) kv hkv
      have hstep : reconcileStep (dl, fl) pe = (dl ++ [pe.url], fl) := by
        simp [reconcileStep, he, insertStr, hpedl, hfil]
      have h1a : ∀ pe2 ∈ t, pe2.url ∉ dl ++ [pe.url] := by
        intro pe2 hm hc
        rcases List.mem_append.mp hc with hc | hc
        · exact h1 pe2 (List.mem_cons_of_mem pe hm) hc
        · have hu : pe2.url = pe.url := by simpa using hc
          exact hmap.1 (hu ▸ List.mem_map_of_mem PageExtraction.url hm)
      have h2a : ∀ pe2 ∈ t, ∀ kv ∈ fl, kv.1 ≠ pe2.url :=
        fun pe2 hm kv hkv => h2 pe2 (List.mem_cons_of_mem pe hm) kv hkv
      rw [List.foldl_cons, hstep, ih (dl ++ [pe.url]) fl h1a h2a hmap.2]
      simp [he, List.filter_cons, List.append_assoc]
    · have hef : pe.errors.isEmpty = false := by
        rwa [Bool.not_eq_true] at he
      have hany : fl.any (fun kv => kv.1 == pe.url) = false := by
        rw [Bool.eq_false_iff]
        intro hc
        rw [List.any_eq_true] at hc
        obtain ⟨kv, hkv, hkc⟩ := hc
        exact h2 pe (List.mem_cons_self pe t) kv hkv (by simpa using hkc)
      have hstep : reconcileStep (dl, fl) pe = (dl, fl ++ [(pe.url, erroredPageOf pe)]) := by
        simp [reconcileStep, hef, mapInsert, hany]
      have h1a : ∀ pe2 ∈ t, pe2.url ∉ dl :=
        fun pe2 hm => h1 pe2 (List.mem_cons_of_mem pe hm)
      have h2a : ∀ pe2 ∈ t, ∀ kv ∈ fl ++ [(pe.url, erroredPageOf pe)], kv.1 ≠ pe2.url := by
        intro pe2 hm kv hkv
        rcases List.mem_append.mp hkv with hkv | hkv
        · exact h2 pe2 (List.mem_cons_of_mem pe hm) kv hkv
        · have hkv2 : kv = (pe.url, erroredPageOf pe) := by simpa using hkv
          subst hkv2
          intro hc
          have hc2 : pe2.url = pe.url := by simpa using hc.symm
          exact hmap.1 (hc2 ▸ List.mem_map_of_mem PageExtraction.url hm)
      rw [List.foldl_cons, hstep, ih dl (fl ++ [(pe.url, erroredPageOf pe)]) h1a h2a hmap.2]
      simp [hef, List.filter_cons, List.append_assoc]

/-- The page extraction of a page B that succeeded. -/
def peB : PageExtraction := { url := "B", articles := [], links := [], errors := [] }

/-- The page extraction of a page C that failed. -/
def peC : PageExtraction :=
  { url := "C", articles := [], links := [], errors := [.ParserError "boom"] }

/-- C3: after the bookkeeping reconciliation of a run (whose crawled
urls are pairwise distinct and disjoint from the previously downloaded
set, as the orchestrator guarantees by crawling the set difference),
every crawled page with zero errors is in downloaded_pages and not in
failed_pages, every crawled page with errors is in failed_pages and not
in downloaded_pages, and no url is in both; concretely, with prior
downloaded_pages A, prior failed page B re-crawled successfully and new
page C failing, the run ends with downloaded_pages A and B and
failed_pages holding exactly C (the failed map is rebuilt from scratch
each run, so B is gone from it). -/
theorem claim_C3 :
    (∀ (init : List String) (pes : List PageExtraction),
      (∀ pe ∈ pes, pe.url ∉ init) →
      (pes.map PageExtraction.url).Nodup →
      ((∀ pe ∈ pes, pe.errors = [] →
         pe.url ∈ (run_bookkeeping init pes).1 ∧
         pe.url ∉ (run_bookkeeping init pes).2.map Prod.fst) ∧
       (∀ pe ∈ pes, pe.errors ≠ [] →
         pe.url ∈ (run_bookkeeping init pes).2.map Prod.fst ∧
         pe.url ∉ (run_bookkeeping init pes).1) ∧
       (∀ u, u ∈ (run_bookkeeping init pes).1 →
         u ∉ (run_bookkeeping init pes).2.map Prod.fst))) ∧
    run_bookkeeping ["A"] [peB, peC] =
      (["A", "B"], [("C", { url := "C", errors := ["Error while parsing: boom"] })]) := by
  constructor
  · intro init pes h1 h3
    have hcl := reconcile_closed pes init [] h1 (by intro pe _ kv hkv; simp at hkv) h3
    have hbk : run_bookkeeping init pes =
        (init ++ (pes.filter (fun pe => pe.errors.isEmpty)).map PageExtraction.url,
         (pes.filter (fun pe => !pe.errors.isEmpty)).map
           (fun pe => (pe.url, erroredPageOf pe))) := by
      rw [run_bookkeeping, reconcile, hcl]
      simp
    have hinj : ∀ pe1 ∈ pes, ∀ pe2 ∈ pes, pe1.url = pe2.url → pe1 = pe2 :=
      fun pe1 hm1 pe2 hm2 hu => List.inj_on_of_nodup_map h3 hm1 hm2 hu
    have hkeys : ∀ u, u ∈ (run_bookkeeping init pes).2.map Prod.fst →
        ∃ pe2 ∈ pes, pe2.errors ≠ [] ∧ pe2.url = u := by
      intro u hc
      rw [hbk] at hc
      simp only [List.map_map, List.mem_map, Function.comp] at hc
      obtain ⟨pe2, hm2, hu2⟩ := hc
      have hm2f := List.mem_filter.mp hm2
      refine ⟨pe2, hm2f.1, ?_, hu2⟩
      intro hnil
      have : pe2.errors.isEmpty = true := by simp [hnil]
      simp [this] at hm2f
    refine ⟨?_, ?_, ?_⟩
    · intro pe hm herr
      constructor
      · rw [hbk]
        exact List.mem_append_right _
          (List.mem_map_of_mem _ (List.mem_filter.mpr ⟨hm, by simp [herr]⟩))
      · intro hc
        obtain ⟨pe2, hm2, hne2, hu2⟩ := hkeys pe.url hc
        have : pe2 = pe := hinj pe2 hm2 pe hm hu2
        subst this
        exact hne2 herr
    · intro pe hm herr
      constructor
      · rw [hbk]
        simp only [List.map_map, List.mem_map, Function.comp]
        exact ⟨pe, List.mem_filter.mpr ⟨hm, by simp [isEmpty_false_of_ne_nil herr]⟩, rfl⟩
      · intro hc
        rw [hbk] at hc
        rcases List.mem_append.mp hc with hc | hc
        · exact h1 pe hm hc
        · obtain ⟨pe1, hm1, hu1⟩ := List.mem_map.mp hc
          have hm1f := List.mem_filter.mp hm1
          have : pe1 = pe := hinj pe1 hm1f.1 pe hm hu1
          subst this
          rw [isEmpty_false_of_ne_nil herr] at hm1f
          simp at hm1f
    · intro u hu hc
      obtain ⟨pe2, hm2, hne2, hu2⟩ := hkeys u hc
      rw [hbk] at hu
      rcases List.mem_append.mp hu with hu | hu
      · exact h1 pe2 hm2 (hu2 ▸ hu)
      · obtain ⟨pe1, hm1, hu1⟩ := List.mem_map.mp hu
        have hm1f := List.mem_filter.mp hm1
        have : pe1 = pe2 := hinj pe1 hm1f.1 pe2 hm2 (hu1.trans hu2.symm)
        subst this
        rw [isEmpty_false_of_ne_nil hne2] at hm1f
        simp at hm1f
  · decide

/-- Closed witness for C3: in the concrete scenario the successful
re-crawl of B lands in downloaded_pages and not among the failed keys. -/
theorem claim_C3_witness :
    "B" ∈ (run_bookkeeping ["A"] [peB, peC]).1 ∧
    "B" ∉ (run_bookkeeping ["A"] [peB, peC]).2.map Prod.fst :=
  (claim_C3.1 ["A"] [peB, peC] (by decide) (by decide)).1 peB (by simp) rfl

/-- Closed witness for C10: idempotence at a concrete date string. -/
theorem claim_C10_witness :
    revert_galnet_dateG isDig isWordC isSepC
        (revert_galnet_dateG isDig isWordC isSepC "07 SEP 3301") =
      revert_galnet_dateG isDig isWordC isSepC "07 SEP 3301" :=
  claim_C10.1 isDig isWordC isSepC isSepC_eq_false_of_isDig (by decide) "07 SEP 3301"
